import Mathlib

/-!
Verification development for `ollama_terminal.py` (Ollama Terminal agent).

The Python source is shallowly embedded: pure helpers become Lean functions
on `List Char` / `String`, the stdlib `json.loads` is modelled by an
executable recursive-descent parser over the JSON grammar that the Python
`json` module accepts (object/array/string/number/true/false/null plus the
default-enabled constants NaN, Infinity and negative Infinity), and the
agent loop `run_agent` becomes a step function over an explicit state, with the
external world (inference calls, the subordinate process, the human user)
supplied by an environment record.  Python exceptions that the source code
catches are modelled by the corresponding handled branch; exceptions that
no handler catches are modelled by an explicit `raised` result.
-/

/-! ### Characters and whitespace (Python `str.strip`) -/

/-- Whitespace characters stripped by Python `str.strip()` (ASCII subset;
the inputs handled by the agent never contain non-ASCII whitespace). -/
def isWs (c : Char) : Bool :=
  c = ' ' || c = '\t' || c = '\n' || c = '\r' || c = Char.ofNat 11 || c = Char.ofNat 12

/-- Remove trailing whitespace from a character list. -/
def dropTrailingWs (l : List Char) : List Char :=
  (l.reverse.dropWhile isWs).reverse

/-- Python `str.strip()` on the underlying character list. -/
def stripChars (l : List Char) : List Char :=
  dropTrailingWs (l.dropWhile isWs)

/-- Python `str.strip()` at the `String` level. -/
def strStrip (s : String) : String :=
  String.mk (stripChars s.data)

/-! ### Substring membership (Python `in` on strings) and prefixes -/

/-- Python `needle in hay` for character lists. -/
def charSeqIn (needle : List Char) : List Char → Bool
  | [] => needle.isEmpty
  | c :: rest => needle.isPrefixOf (c :: rest) || charSeqIn needle rest

/-- Python `needle in hay` for strings. -/
def strIn (needle hay : String) : Bool :=
  charSeqIn needle.data hay.data

/-- Python `hay.startswith(needle)` for strings. -/
def strStarts (hay needle : String) : Bool :=
  needle.data.isPrefixOf hay.data

/-- Python `s.lower()` (ASCII). -/
def strLower (s : String) : String :=
  String.mk (s.data.map Char.toLower)

/-! ### Fenced-code marker stripping

Embeds the first two lines of `parse_json` (ollama_terminal.py:518-519):

    t = re.sub(r"^```(?:json)?\s*", "", text.strip(), flags=re.IGNORECASE)
    t = re.sub(r"\s*```$", "", t).strip()

The first substitution removes one leading fence marker (with an optional
case-insensitive `json` tag and following whitespace); the second removes
one trailing fence marker together with the whitespace in front of it.
Because the text was already stripped, the `$` anchor of the second regex can
only match at the very end of the string. -/

def fenceTicks : List Char := ['`', '`', '`']

/-- Strip an optional leading/trailing fenced-code marker and whitespace. -/
def stripFences (text : List Char) : List Char :=
  let s := stripChars text
  let t1 :=
    if s.take 3 = fenceTicks then
      let rest := s.drop 3
      if (rest.take 4).map Char.toLower = ['j', 's', 'o', 'n'] then
        (rest.drop 4).dropWhile isWs
      else
        rest.dropWhile isWs
    else s
  let t2 :=
    if t1.reverse.take 3 = fenceTicks then
      dropTrailingWs (t1.take (t1.length - 3))
    else t1
  stripChars t2

/-! ### JSON values (results of Python `json.loads`)

`JValue.null` models the Python value `None` (the result of loading the
JSON literal `null`).  Numbers keep their source numeral text: no claim
depends on numeric value, only on structure and on Python truthiness.
Objects keep their key/value pairs in source order; the Python `dict`
keeps the *last* binding of a duplicated key, so lookups below return the
last matching pair. -/

inductive JValue where
  | null
  | bool (b : Bool)
  | num (raw : String)
  | str (s : String)
  | arr (elems : List JValue)
  | obj (fields : List (String × JValue))

/-- Last-binding lookup, matching Python `dict` construction from pairs. -/
def lookupLast (fields : List (String × JValue)) (key : String) : Option JValue :=
  fields.foldl (fun acc kv => if kv.1 = key then some kv.2 else acc) none

/-- Python `key in obj` for a loaded JSON object. -/
def hasKey (fields : List (String × JValue)) (key : String) : Bool :=
  (lookupLast fields key).isSome

/-- Python `obj.get(key, default)` for a loaded JSON object. -/
def lookupLastD (fields : List (String × JValue)) (key : String) (dflt : JValue) : JValue :=
  (lookupLast fields key).getD dflt

/-- True when every digit of the mantissa of the numeral (the part before any
exponent) is `0`; this is exactly when Python evaluates the loaded number
as falsy. `NaN`/`Infinity` contain no digits and are truthy. -/
def numIsZero (raw : String) : Bool :=
  let mantissa := raw.data.takeWhile (fun c => c ≠ 'e' && c ≠ 'E')
  let digits := mantissa.filter Char.isDigit
  !digits.isEmpty && digits.all (· = '0')

/-- Python truthiness of a loaded JSON value. -/
def JValue.truthy : JValue → Bool
  | .null => false
  | .bool b => b
  | .num raw => !numIsZero raw
  | .str s => !s.data.isEmpty
  | .arr l => !l.isEmpty
  | .obj l => !l.isEmpty

/-! ### The JSON grammar accepted by Python `json.loads` (default settings)

Whitespace between tokens is `' '`, `'\t'`, `'\n'`, `'\r'` (the JSON
whitespace set used by the Python scanner, narrower than `str.strip`).
Strings are strict: unescaped control characters below U+0020 are
rejected; `\uXXXX` escapes decode to the corresponding character (the
lone-surrogate corner of the CPython decoder is not modelled; no input in
this development contains one).  Numbers follow the CPython NUMBER_RE and
are kept as their matched text. -/

def isJsonWs (c : Char) : Bool :=
  c = ' ' || c = '\t' || c = '\n' || c = '\r'

def skipWs (cs : List Char) : List Char :=
  cs.dropWhile isJsonWs

def hexVal (c : Char) : Option Nat :=
  let v := c.toNat
  if 48 ≤ v && v ≤ 57 then some (v - 48)
  else if 97 ≤ v && v ≤ 102 then some (v - 87)
  else if 65 ≤ v && v ≤ 70 then some (v - 55)
  else none

/-- Parse the remainder of a JSON string literal (the opening quote is
already consumed); returns the decoded contents and the rest. -/
def parseStringRest : List Char → Option (List Char × List Char)
  | [] => none
  | '"' :: rest => some ([], rest)
  | '\\' :: 'u' :: h1 :: h2 :: h3 :: h4 :: rest =>
      match hexVal h1, hexVal h2, hexVal h3, hexVal h4 with
      | some a, some b, some c, some d =>
          match parseStringRest rest with
          | some (tail, r) => some (Char.ofNat (((a * 16 + b) * 16 + c) * 16 + d) :: tail, r)
          | none => none
      | _, _, _, _ => none
  | '\\' :: e :: rest =>
      match
        (if e = '"' then some '"'
         else if e = '\\' then some '\\'
         else if e = '/' then some '/'
         else if e = 'b' then some (Char.ofNat 8)
         else if e = 'f' then some (Char.ofNat 12)
         else if e = 'n' then some '\n'
         else if e = 'r' then some '\r'
         else if e = 't' then some '\t'
         else none) with
      | some d =>
          match parseStringRest rest with
          | some (tail, r) => some (d :: tail, r)
          | none => none
      | none => none
  | c :: rest =>
      if c.toNat < 32 then none
      else
        match parseStringRest rest with
        | some (tail, r) => some (c :: tail, r)
        | none => none

/-- Greedy digit run. -/
def takeDigits (cs : List Char) : List Char × List Char :=
  (cs.takeWhile Char.isDigit, cs.dropWhile Char.isDigit)

/-- CPython `json` NUMBER_RE: `-?(0|[1-9]\d*)(\.\d+)?([eE][-+]?\d+)?`,
matched greedily; returns the matched text and the rest. -/
def parseNumber (cs : List Char) : Option (List Char × List Char) :=
  let (sign, afterSign) :=
    match cs with
    | '-' :: rest => (['-'], rest)
    | _ => ([], cs)
  match afterSign with
  | [] => none
  | c :: _ =>
      if !c.isDigit then none
      else
        let (intPart, afterInt) :=
          if c = '0' then (['0'], afterSign.drop 1)
          else takeDigits afterSign
        let (fracPart, afterFrac) :=
          match afterInt with
          | '.' :: d :: _ =>
              if d.isDigit then
                let (ds, r) := takeDigits (afterInt.drop 1)
                ('.' :: ds, r)
              else ([], afterInt)
          | _ => ([], afterInt)
        let (expPart, afterExp) :=
          match afterFrac with
          | e :: rest =>
              if e = 'e' || e = 'E' then
                match rest with
                | s :: d :: _ =>
                    if (s = '+' || s = '-') && d.isDigit then
                      let (ds, r) := takeDigits (rest.drop 1)
                      (e :: s :: ds, r)
                    else if s.isDigit then
                      let (ds, r) := takeDigits rest
                      (e :: ds, r)
                    else ([], afterFrac)
                | [s] =>
                    if s.isDigit then
                      let (ds, r) := takeDigits rest
                      (e :: ds, r)
                    else ([], afterFrac)
                | [] => ([], afterFrac)
              else ([], afterFrac)
          | [] => ([], afterFrac)
        some (sign ++ intPart ++ fracPart ++ expPart, afterExp)

mutual

/-- Parse one JSON value, Python-`json.loads` style (leading whitespace is
skipped; literals are tried in scanner order).  `fuel` bounds the
recursion; `jsonLoads` supplies more fuel than any input can consume. -/
def parseValue : Nat → List Char → Option (JValue × List Char)
  | 0, _ => none
  | fuel + 1, cs =>
      match skipWs cs with
      | [] => none
      | '"' :: rest =>
          match parseStringRest rest with
          | some (content, r) => some (.str (String.mk content), r)
          | none => none
      | '{' :: rest => parseObjBody fuel rest
      | '[' :: rest => parseArrBody fuel rest
      | c :: rest =>
          let cs' := c :: rest
          if ['n', 'u', 'l', 'l'].isPrefixOf cs' then some (.null, cs'.drop 4)
          else if ['t', 'r', 'u', 'e'].isPrefixOf cs' then some (.bool true, cs'.drop 4)
          else if ['f', 'a', 'l', 's', 'e'].isPrefixOf cs' then some (.bool false, cs'.drop 5)
          else
            match parseNumber cs' with
            | some (raw, r) => some (.num (String.mk raw), r)
            | none =>
                if ['N', 'a', 'N'].isPrefixOf cs' then some (.num "NaN", cs'.drop 3)
                else if ['I', 'n', 'f', 'i', 'n', 'i', 't', 'y'].isPrefixOf cs' then
                  some (.num "Infinity", cs'.drop 8)
                else if ['-', 'I', 'n', 'f', 'i', 'n', 'i', 't', 'y'].isPrefixOf cs' then
                  some (.num "-Infinity", cs'.drop 9)
                else none

/-- Parse an object body, the opening `{` already consumed. -/
def parseObjBody : Nat → List Char → Option (JValue × List Char)
  | 0, _ => none
  | fuel + 1, cs =>
      match skipWs cs with
      | '}' :: rest => some (.obj [], rest)
      | cs' => parseMembers fuel cs' []

/-- Parse the members of a non-empty object. -/
def parseMembers : Nat → List Char → List (String × JValue) → Option (JValue × List Char)
  | 0, _, _ => none
  | fuel + 1, cs, acc =>
      match cs with
      | '"' :: rest =>
          match parseStringRest rest with
          | some (key, r1) =>
              match skipWs r1 with
              | ':' :: r2 =>
                  match parseValue fuel r2 with
                  | some (v, r3) =>
                      let acc' := acc ++ [(String.mk key, v)]
                      match skipWs r3 with
                      | ',' :: r4 => parseMembers fuel (skipWs r4) acc'
                      | '}' :: r4 => some (.obj acc', r4)
                      | _ => none
                  | none => none
              | _ => none
          | none => none
      | _ => none

/-- Parse an array body, the opening `[` already consumed. -/
def parseArrBody : Nat → List Char → Option (JValue × List Char)
  | 0, _ => none
  | fuel + 1, cs =>
      match skipWs cs with
      | ']' :: rest => some (.arr [], rest)
      | cs' => parseElems fuel cs' []

/-- Parse the elements of a non-empty array. -/
def parseElems : Nat → List Char → List JValue → Option (JValue × List Char)
  | 0, _, _ => none
  | fuel + 1, cs, acc =>
      match parseValue fuel cs with
      | some (v, r1) =>
          let acc' := acc ++ [v]
          match skipWs r1 with
          | ',' :: r2 => parseElems fuel r2 acc'
          | ']' :: r2 => some (.arr acc', r2)
          | _ => none
      | none => none

end

/-- Python `json.loads` on a character list: parse one value, allow
surrounding whitespace, require the whole input to be consumed; `none`
models a raised `JSONDecodeError`. -/
def jsonLoads (cs : List Char) : Option JValue :=
  match parseValue (cs.length + 1) cs with
  | some (v, rest) => if skipWs rest = [] then some v else none
  | none => none

/-! ### The structured response parser `parse_json` (ollama_terminal.py:517-536)

    def parse_json(text):
        t = re.sub(r"^```(?:json)?\s*", "", text.strip(), flags=re.IGNORECASE)
        t = re.sub(r"\s*```$", "", t).strip()
        try: return json.loads(t)
        except: pass
        best=None
        for s in range(len(t)):
            if t[s] != "{": continue
            depth=0
            for e in range(s,len(t)):
                if t[e] == "{": depth+=1
                elif t[e] == "}":
                    depth-=1
                    if depth==0:
                        try:
                            obj=json.loads(t[s:e+1])
                            if "action" in obj: best=obj
                        except: pass
                        break
        return best

A Python result of `None` (no balanced candidate found, or the whole text
loading to JSON `null`) is modelled as `none`; to the caller both are "no
decision". -/

/-- The inner scan of `parse_json`: starting from a position whose
character is `'{'`, walk forward tracking brace depth and return the
substring ending at the first position where the depth returns to zero
(Python breaks out of the inner loop there whether or not the substring
parses).  `none` when the depth never returns to zero. -/
def braceSpan : List Char → Nat → List Char → Option (List Char)
  | [], _, _ => none
  | c :: rest, depth, acc =>
      if c = '{' then braceSpan rest (depth + 1) (acc ++ [c])
      else if c = '}' then
        if depth = 1 then some (acc ++ [c])
        else braceSpan rest (depth - 1) (acc ++ [c])
      else braceSpan rest depth (acc ++ [c])

/-- The candidate decision recovered at position `s` of the text: the
first depth-balanced substring starting there, provided it starts with
`'{'`, loads as JSON, and the loaded object contains the `"action"`
discriminator field.  (A substring starting with `'{'` can only load to
an object, so the `"action" in obj` membership test is a key lookup.) -/
def candidateAt (t : List Char) (s : Nat) : Option JValue :=
  match t.drop s with
  | '{' :: _ =>
      match braceSpan (t.drop s) 0 [] with
      | some sub =>
          match jsonLoads sub with
          | some (JValue.obj fields) =>
              if hasKey fields "action" then some (JValue.obj fields) else none
          | _ => none
      | none => none
  | _ => none

/-- The body of `parse_json` after fence stripping: a direct `json.loads`
of the whole text (a loaded `null` is Python `None`, i.e. no decision),
falling back to the left-to-right scan in which a later qualifying
candidate overwrites an earlier one. -/
def parseAfterStrip (t : List Char) : Option JValue :=
  match jsonLoads t with
  | some JValue.null => none
  | some v => some v
  | none =>
      (List.range t.length).foldl
        (fun best s =>
          match candidateAt t s with
          | some v => some v
          | none => best)
        none

/-- `parse_json` (ollama_terminal.py:517-536). -/
def parse_json (text : String) : Option JValue :=
  parseAfterStrip (stripFences text.data)

/-! ### Conversation messages and the context window -/

/-- One conversation message, Python `{"role": ..., "content": ...}`. -/
structure Message where
  role : String
  content : String

/-- `MAX_HISTORY_MSGS` (ollama_terminal.py:72). -/
def MAX_HISTORY_MSGS : Nat := 16

/-- `trim_messages` (ollama_terminal.py:468-471):

    def trim_messages(messages):
        if len(messages) <= MAX_HISTORY_MSGS + 1: return messages
        return [messages[0]] + messages[-MAX_HISTORY_MSGS:]

In the second branch the list has at least 18 elements, so `[messages[0]]`
is `take 1` and the negative slice is `drop (length - MAX_HISTORY_MSGS)`. -/
def trim_messages (messages : List Message) : List Message :=
  if messages.length ≤ MAX_HISTORY_MSGS + 1 then messages
  else messages.take 1 ++ messages.drop (messages.length - MAX_HISTORY_MSGS)

/-! ### The command executor `run_cmd` (ollama_terminal.py:541-566)

The subordinate process and its two reader threads are summarised by a
`SpawnOutcome` describing what the operating system side does: the spawn
fails with an error message, or the process produces the given stdout and
stderr lines and either exits in time with a return code or is still
running when the timeout expires.  `run_cmd` folds that outcome into the
dictionary it returns; the surrounding `try`/`except` makes it total.

On the timeout path the code calls `proc.kill()` and never waits again,
so `proc.returncode` is still Python `None` when it is read; the exit
marker of a timeout result is therefore `none` (and the stderr lines get
`"Timed out."` appended).  On a spawn failure the code is `-1` and the
error text is the only stderr line. -/

inductive SpawnOutcome where
  | spawnError (msg : String)
  | completed (outLines errLines : List String) (code : Int)
  | timedOut (outLines errLines : List String)

/-- The dictionary returned by `run_cmd`; `returncode = none` models the
Python `None` left behind by the timeout path. -/
structure CommandResult where
  stdout : String
  stderr : String
  returncode : Option Int

/-- Python `"\n".join(lines)`. -/
def joinLines : List String → String
  | [] => ""
  | [x] => x
  | x :: y :: rest => x ++ "\n" ++ joinLines (y :: rest)

/-- The command executor (Python function at ollama_terminal.py:541-566;
its Python name collides with a reserved Lean token, hence `runCmd`),
with the process behaviour abstracted into a `SpawnOutcome`. -/
def runCmd (outcome : SpawnOutcome) : CommandResult :=
  match outcome with
  | .spawnError e => ⟨joinLines [], joinLines [e], some (-1)⟩
  | .completed outLines errLines code =>
      ⟨joinLines outLines, joinLines errLines, some code⟩
  | .timedOut outLines errLines =>
      ⟨joinLines outLines, joinLines (errLines ++ ["Timed out."]), none⟩


/-! ### The agent loop `run_agent` (ollama_terminal.py:642-942)

The interaction of the loop with the outside world is supplied by a `TurnEnv`
per turn: the outcomes of the `call_model` invocations made during the
turn (indexed in call order; `Except.error` models a raised exception),
the behaviour of the subordinate process for a `run` action, the text the
human types for an `ask` action, and the availability of the web
collaborator and its produced feedback bodies for `search`/`fetch` (whose exact formatting
is presentation glue around the loop and carries no control flow).

Exceptions the loop does not catch — a `call_model` error raised inside
the JSON retry loop (line 707 sits outside any `try`), or the
`AttributeError` from calling `.get`/`.lower`/`.strip` on a non-`dict`
value — are modelled by the explicit `TurnResult.raised` outcome: the
Python process would terminate with an unhandled-exception traceback. -/

/-- `MAX_ITERATIONS` (ollama_terminal.py:70). -/
def MAX_ITERATIONS : Nat := 60

/-- `MAX_JSON_RETRIES` (ollama_terminal.py:71). -/
def MAX_JSON_RETRIES : Nat := 5

/-- `RETRY_PROMPT` (ollama_terminal.py:128-129). -/
def RETRY_PROMPT : String :=
  "BAD JSON. Reply with ONLY a raw JSON object. No text before or after. Example: \x7b\"action\":\"run\",\"command\":\"ls /tmp\",\"reason\":\"explore\"\x7d"

/-- The behaviour of the outside world during one turn of the loop. -/
structure TurnEnv where
  calls : Nat → Except String String
  cmdOutcome : SpawnOutcome
  userAnswer : String
  webAvailable : Bool
  searchFeedbackText : String
  fetchText : String

/-- The loop state carried across turns: `step`, `consecutive_fails` and
the conversation (ollama_terminal.py:669-674). -/
structure AgentState where
  step : Nat
  fails : Nat
  messages : List Message

/-- The result of one iteration of the `while` loop. -/
inductive TurnResult where
  | next (s : AgentState)
  | done (s : AgentState)
  | apiCeiling (s : AgentState)
  | parseCeiling (s : AgentState)
  | raised (e : String) (s : AgentState)

/-- Python truthiness of a `parse_json` result (`if parsed: break`). -/
def jTruthy : Option JValue → Bool
  | none => false
  | some v => v.truthy

/-- The JSON retry loop (ollama_terminal.py:702-710): up to `n` more
attempts, appending the previous raw reply and `RETRY_PROMPT`, then
re-invoking the generator (call index `i`) and re-parsing; a truthy parse
breaks out, a falsy one is carried into the next attempt.  The generator
call here is not wrapped in any `try`, so an error is returned as
`Except.error` and propagates (uncaught) out of `run_agent`. -/
def retryLoop (calls : Nat → Except String String) :
    Nat → Nat → List Message → String → Option JValue →
    Except String (List Message × String × Option JValue)
  | _, 0, msgs, raw, parsed => .ok (msgs, raw, parsed)
  | i, n + 1, msgs, raw, _ =>
      let msgs' := msgs ++ [⟨"assistant", raw⟩, ⟨"user", RETRY_PROMPT⟩]
      match calls i with
      | .error e => .error e
      | .ok raw' =>
          let parsed' := parse_json raw'
          if jTruthy parsed' then .ok (msgs', raw', parsed')
          else retryLoop calls (i + 1) n msgs' raw' parsed'

/-- How the decision-obtaining phase of a turn (ollama_terminal.py:681-721,
up to the dispatch) ends. -/
inductive DPhase where
  | apiError (e : String)
  | crashed (e : String)
  | noDecision (msgs : List Message)
  | got (msgs : List Message) (raw : String) (v : JValue)

/-- The decision-obtaining phase of one turn: the first `call_model` is
wrapped in `try`/`except` (line 682-695), the retry loop is not; after
the retry loop, only a result that `is None` counts as no decision (a
falsy non-`None` parse from the final attempt is dispatched). -/
def decisionPhase (calls : Nat → Except String String) (msgs : List Message) : DPhase :=
  match calls 0 with
  | .error e => .apiError e
  | .ok raw0 =>
      match parse_json raw0 with
      | some v => .got msgs raw0 v
      | none =>
          match retryLoop calls 1 MAX_JSON_RETRIES msgs raw0 none with
          | .error e => .crashed e
          | .ok (msgs', raw', some v) => .got msgs' raw' v
          | .ok (msgs', _, none) => .noDecision msgs'

/-- The keyword test of the `ask` branch (ollama_terminal.py:748):
`any(kw in q.lower() for kw in ["remove", "delete", "want to"])`. -/
def askKw (q : String) : Bool :=
  ["remove", "delete", "want to"].any (fun kw => strIn kw (strLower q))

/-- `interactive_markers` (ollama_terminal.py:891). -/
def interactiveMarkers : List String :=
  ["[Y/n]", "[y/N]", "Do you want to", "(y|n)", "[yes/no]"]

/-- `prompt_hint` selection (ollama_terminal.py:896-902). -/
def promptHint (cmd : String) : String :=
  if strIn "pacman" cmd then "Retry with: pacman ... --noconfirm"
  else if strIn "apt" cmd || strIn "dpkg" cmd then
    "Retry with: apt ... -y or DEBIAN_FRONTEND=noninteractive"
  else if strIn "dnf" cmd || strIn "yum" cmd then "Retry with: dnf ... -y"
  else ""

/-- `silent_fail_hint` (ollama_terminal.py:913-919). -/
def silentFailHint (cmd : String) : String :=
  if (strIn "curl" cmd || strIn "wget" cmd) && strIn "http" cmd then
    "\nIMPORTANT: If this was a download, check the file size with ls -lh. A file smaller than 1 KB means the download FAILED (got an error page). If so, search the web for the correct direct download URL and retry."
  else ""

/-- Python `s[-n:] if len(s) > n else s` (output-tail truncation,
ollama_terminal.py:886-887). -/
def lastChars (n : Nat) (s : String) : String :=
  if n < s.data.length then String.mk (s.data.drop (s.data.length - n)) else s

/-- Python `str(returncode)` as interpolated into the feedback text;
`None` prints as `"None"`. -/
def retcodeStr : Option Int → String
  | none => "None"
  | some n => toString n

/-- Python `repr` of a URL string as interpolated by `{url!r}`
(ollama_terminal.py:854); the URLs reaching this point contain no quotes
or escapes, for which `repr` is single-quote wrapping. -/
def pyRepr (s : String) : String :=
  "\x27" ++ s ++ "\x27"

/-- The feedback message of a successful `run` action without an
interactive prompt (ollama_terminal.py:920-926). -/
def runSuccessFeedback (cmd stdout stderr : String) : String :=
  "RESULT: SUCCESS\nCommand: " ++ cmd ++ "\nstdout:\n" ++ stdout ++ "\nstderr:\n" ++ stderr
    ++ "\n\n" ++ silentFailHint cmd
    ++ "\nIs the full task now complete?\n- Yes: \x7b\"action\":\"done\",\"summary\":\"...\"\x7d\n- No:  next command as JSON. Do NOT ask questions."

/-- The feedback message of a `run` action whose output looks like an
interactive confirmation prompt (ollama_terminal.py:904-910). -/
def runInteractiveFeedback (cmd stdout stderr : String) : String :=
  "RESULT: Waiting for user input\nCommand: " ++ cmd ++ "\nstdout:\n" ++ stdout
    ++ "\nstderr:\n" ++ stderr ++ "\n\nThe command is asking for confirmation. "
    ++ promptHint cmd
    ++ "\nRetry the command with non-interactive flags (--noconfirm, -y, etc) to avoid this.\nReply JSON only."

/-- The feedback message of a failed `run` action (ollama_terminal.py:928-937). -/
def runFailedFeedback (code : Option Int) (cmd stdout stderr : String) : String :=
  "RESULT: FAILED (exit " ++ retcodeStr code ++ ")\nCommand: " ++ cmd ++ "\nstdout:\n"
    ++ stdout ++ "\nstderr:\n" ++ stderr
    ++ "\n\nFAILED. Do NOT repeat this command.\nOptions:\n1. Search the web for this error to find the correct approach.\n2. Try a simpler alternative command.\n3. If the URL/package was guessed, search for the real one.\nReply JSON only."

/-- The automatic reply of the `ask` branch (ollama_terminal.py:750-752). -/
def autoYesFeedback : String :=
  "User confirmed \x27yes\x27. Now retry the previous command with --noconfirm or -y flag to avoid interactive prompts. JSON only."

/-- The user-reply feedback of the `ask` branch (ollama_terminal.py:758-760). -/
def askReplyFeedback (ans : String) : String :=
  ans ++ "\n\nContinue task now. Do NOT ask more questions. JSON only."

/-- The feedback of the `search` branch when the web collaborator cannot be
loaded or installed (ollama_terminal.py:800-804). -/
def searchUnavailableFeedback : String :=
  "Web search is unavailable. Could not install ddgs automatically. Ask the user to run system check from the menu. Try to complete the task using your own knowledge. JSON only."

/-- The invalid-URL feedback of the `fetch` branch (ollama_terminal.py:852-854). -/
def invalidUrlFeedback (url : String) : String :=
  "Invalid URL " ++ pyRepr url
    ++ ". Provide a real http/https URL to fetch. If you don\x27t have one, run a search first. JSON only."

/-- The page feedback of the `fetch` branch (ollama_terminal.py:861-865). -/
def fetchFeedback (url pageText : String) : String :=
  "Fetched URL: " ++ url ++ "\nPage content (truncated):\n" ++ pageText
    ++ "\n\nUse this information to proceed with the task. JSON only."

/-- The empty-command corrective feedback (ollama_terminal.py:877-879). -/
def emptyCommandFeedback : String :=
  "Empty command. Give \x7b\"action\":\"run\",\"command\":\"...\",\"reason\":\"...\"\x7d."

/-- The hard-reset re-anchoring user message (ollama_terminal.py:718-720). -/
def resumeMessage (task : String) : Message :=
  ⟨"user", "Task (resume): " ++ task
    ++ "\nTry a different approach. Use your knowledge first, search only if needed. JSON only."⟩

/-- The caught-API-error hint messages (ollama_terminal.py:692-693). -/
def apiErrorMessages (e : String) : List Message :=
  [⟨"assistant", ""⟩, ⟨"user", "API error: " ++ e ++ ". Retry the last step. JSON only."⟩]

/-- The action dispatcher (ollama_terminal.py:724-939), entered with
`consecutive_fails` already reset to 0 and `action` defaulting to `"run"`
for a missing tag; every action value other than `done`/`ask`/`search`/
`fetch` — the Python `==` comparisons, `JValue.eqStr` here — (including
unknown tags and non-string values) falls into the `run` branch.  A non-object decision raises `AttributeError` at the
`.get` call; a non-string field value raises it at `.strip()`/`.lower()`. -/
def JValue.eqStr : JValue → String → Bool
  | .str t, s => t == s
  | _, _ => false

def dispatchAction (step : Nat) (msgs : List Message) (raw : String) (v : JValue)
    (env : TurnEnv) : TurnResult :=
  match v with
  | JValue.obj fields =>
      let action := lookupLastD fields "action" (JValue.str "run")
      if action.eqStr "done" then .done ⟨step, 0, msgs⟩
      else if action.eqStr "ask" then
          match lookupLastD fields "question" (JValue.str "?") with
          | JValue.str q =>
              if askKw q then
                .next ⟨step, 0, msgs ++ [⟨"assistant", raw⟩, ⟨"user", autoYesFeedback⟩]⟩
              else
                .next ⟨step, 0, msgs ++ [⟨"assistant", raw⟩,
                  ⟨"user", askReplyFeedback (strStrip env.userAnswer)⟩]⟩
          | _ => .raised "AttributeError" ⟨step, 0, msgs⟩
      else if action.eqStr "search" then
          match lookupLastD fields "query" (JValue.str "") with
          | JValue.str q0 =>
              let query := strStrip q0
              if query.data.isEmpty then
                .next ⟨step, 0, msgs ++ [⟨"assistant", raw⟩,
                  ⟨"user", "Empty search query. Provide a search query."⟩]⟩
              else if !env.webAvailable then
                .next ⟨step, 0, msgs ++ [⟨"assistant", raw⟩,
                  ⟨"user", searchUnavailableFeedback⟩]⟩
              else
                .next ⟨step, 0, msgs ++ [⟨"assistant", raw⟩,
                  ⟨"user", env.searchFeedbackText⟩]⟩
          | _ => .raised "AttributeError" ⟨step, 0, msgs⟩
      else if action.eqStr "fetch" then
          match lookupLastD fields "url" (JValue.str "") with
          | JValue.str u0 =>
              let url := strStrip u0
              if url.data.isEmpty || !strStarts url "http" then
                .next ⟨step, 0, msgs ++ [⟨"assistant", raw⟩,
                  ⟨"user", invalidUrlFeedback url⟩]⟩
              else
                .next ⟨step, 0, msgs ++ [⟨"assistant", raw⟩,
                  ⟨"user", fetchFeedback url env.fetchText⟩]⟩
          | _ => .raised "AttributeError" ⟨step, 0, msgs⟩
      else
          match lookupLastD fields "command" (JValue.str "") with
          | JValue.str c0 =>
              let cmd := strStrip c0
              if cmd.data.isEmpty then
                .next ⟨step, 0, msgs ++ [⟨"assistant", raw⟩,
                  ⟨"user", emptyCommandFeedback⟩]⟩
              else
                let result := runCmd env.cmdOutcome
                let stdout := lastChars 2000 result.stdout
                let stderr := lastChars 800 result.stderr
                let feedback :=
                  if result.returncode = some 0 then
                    if interactiveMarkers.any (fun m => strIn m (stdout ++ stderr)) then
                      runInteractiveFeedback cmd stdout stderr
                    else
                      runSuccessFeedback cmd stdout stderr
                  else
                    runFailedFeedback result.returncode cmd stdout stderr
                .next ⟨step, 0, msgs ++ [⟨"assistant", raw⟩, ⟨"user", feedback⟩]⟩
          | _ => .raised "AttributeError" ⟨step, 0, msgs⟩
  | _ => .raised "AttributeError" ⟨step, 0, msgs⟩

/-- One iteration of the `while` loop of `run_agent`
(ollama_terminal.py:676-939). -/
def turn (task : String) (st : AgentState) (env : TurnEnv) : TurnResult :=
  let step := st.step + 1
  match decisionPhase env.calls st.messages with
  | .crashed e => .raised e ⟨step, st.fails, st.messages⟩
  | .apiError e =>
      let fails := st.fails + 1
      if 3 ≤ fails then .apiCeiling ⟨step, fails, st.messages⟩
      else .next ⟨step, fails, st.messages ++ apiErrorMessages e⟩
  | .noDecision msgs =>
      let fails := st.fails + 1
      if 3 ≤ fails then .parseCeiling ⟨step, fails, msgs⟩
      else
        match msgs with
        | [] => .raised "IndexError" ⟨step, fails, msgs⟩
        | m0 :: _ => .next ⟨step, fails, [m0, resumeMessage task]⟩
  | .got msgs raw v => dispatchAction step msgs raw v env

/-- The distinguishable ways a whole run ends. -/
inductive AgentOutcome where
  | success
  | apiFailStop
  | parseFailStop
  | stepLimit
  | uncaught (e : String)

/-- The `while step < MAX_ITERATIONS` loop; the fuel argument only bounds
the recursion and is supplied as `MAX_ITERATIONS` by `run_agent`, so the
`step` guard always fires first. -/
def runLoop (task : String) (envs : Nat → TurnEnv) :
    Nat → AgentState → AgentOutcome × AgentState
  | 0, st => (.stepLimit, st)
  | fuel + 1, st =>
      if MAX_ITERATIONS ≤ st.step then (.stepLimit, st)
      else
        match turn task st (envs st.step) with
        | .next s' => runLoop task envs fuel s'
        | .done s' => (.success, s')
        | .apiCeiling s' => (.apiFailStop, s')
        | .parseCeiling s' => (.parseFailStop, s')
        | .raised e s' => (.uncaught e, s')

/-- The search keywords of ollama_terminal.py:653-654. -/
def searchKw : List String :=
  ["download", "install", "get", "update", "upgrade", "find", "latest",
   "setup", "build", "compile", "fetch", "clone", "pull", "deploy", "how"]

/-- The first user message (ollama_terminal.py:655-667). -/
def firstMessage (task : String) : Message :=
  if searchKw.any (fun w => strIn w (strLower task)) then
    ⟨"user", "Task: " ++ task
      ++ "\n\nIf you know the command, run it directly. Use web search only if you\x27re unsure about the package name or command. JSON only."⟩
  else
    ⟨"user", "Task: " ++ task
      ++ "\n\nProceed with the task using shell commands and your knowledge. JSON only."⟩

/-- `run_agent` (ollama_terminal.py:642-942): the system prompt built by
`build_system_prompt` depends on the host environment and is supplied as
a parameter. -/
def run_agent (task sysPrompt : String) (envs : Nat → TurnEnv) : AgentOutcome × AgentState :=
  runLoop task envs MAX_ITERATIONS
    ⟨0, 0, [⟨"system", sysPrompt⟩, firstMessage task]⟩


/-! ### Spec-side description of the fallback scan (for claim C6)

Modelled from the spec (§4.1): "scan the text left to right for every
position that opens a brace, and for each, scan forward tracking nesting
depth; when depth returns to zero, attempt to parse that exact substring
as an object.  Among all substrings that parse successfully and contain
the discriminator field, keep the last one found."  The definition below
lists the qualifying objects in left-to-right scan order; the phrase
"keep the last" of the spec is then `List.getLast?` of this list, to be compared with
the imperative overwriting accumulation in `parseAfterStrip`. -/

/-- All qualifying candidate objects of the text in scan order. -/
def specQualifying (t : List Char) : List JValue :=
  (List.range t.length).filterMap (candidateAt t)

/-! ### Auxiliary predicates about a turn (used to state the claims) -/

/-- The decision phase of the turn produced a validated decision
(`parsed is not None` after the retry loop). -/
def TurnYields (calls : Nat → Except String String) (msgs : List Message) : Prop :=
  ∃ m r v, decisionPhase calls msgs = DPhase.got m r v

/-- The decision phase of the turn escaped through an uncaught exception
(a `call_model` error inside the JSON retry loop). -/
def TurnCrashes (calls : Nat → Except String String) (msgs : List Message) : Prop :=
  ∃ e, decisionPhase calls msgs = DPhase.crashed e

/-- Replace only the free-text reply of the human in an environment (used to
state that non-`ask` turns never consult the human). -/
def setAnswer (env : TurnEnv) (a : String) : TurnEnv :=
  ⟨env.calls, env.cmdOutcome, a, env.webAvailable, env.searchFeedbackText, env.fetchText⟩

/-! ### Concrete fixtures used by the witness and counterexample theorems -/

/-- A two-message conversation start: the system message and a task message. -/
def wMsgs : List Message := [⟨"system", "S"⟩, ⟨"user", "Task: demo"⟩]

/-- A fresh loop state over `wMsgs`. -/
def wState : AgentState := ⟨0, 0, wMsgs⟩

/-- An environment whose generator calls are given by `f`; the command,
answer and web fields are fixed harmless values. -/
def mkEnv (f : Nat → Except String String) : TurnEnv :=
  ⟨f, SpawnOutcome.completed ["hi"] [] 0, "  /tmp  ", false, "SF", "FT"⟩

/-- Generator replies with a valid `done` decision. -/
def envDone : TurnEnv := mkEnv fun _ => .ok "\x7b\"action\":\"done\",\"summary\":\"ok\"\x7d"

/-- Generator replies with a bare JSON number. -/
def envNum : TurnEnv := mkEnv fun _ => .ok "42"

/-- Generator replies with an object lacking the discriminator field. -/
def envNoAction : TurnEnv := mkEnv fun _ => .ok "\x7b\"foo\": 1\x7d"

/-- First call returns unparsable text, every retry call raises. -/
def envRetryCrash : TurnEnv :=
  mkEnv fun i => if i = 0 then .ok "no" else .error "connection refused"

/-- Every generator call returns unparsable text. -/
def envAllBad : TurnEnv := mkEnv fun _ => .ok "no"

/-- Every generator call raises (a network error). -/
def envApiDown : TurnEnv := mkEnv fun _ => .error "down"

/-- The raw text of an `ask` decision whose question matches the
auto-confirm keywords. -/
def askKwRaw : String := "\x7b\"action\":\"ask\",\"question\":\"Do you want to remove it?\"\x7d"

/-- The raw text of an `ask` decision with an ordinary question. -/
def askPlainRaw : String := "\x7b\"action\":\"ask\",\"question\":\"Which directory?\"\x7d"

/-- Generator replies with the keyword `ask` decision; the reply of the
human is `a`. -/
def envAskKw (a : String) : TurnEnv :=
  ⟨fun _ => .ok askKwRaw, SpawnOutcome.completed [] [] 0, a, false, "", ""⟩

/-- Generator replies with the ordinary `ask` decision. -/
def envAskPlain : TurnEnv := mkEnv fun _ => .ok askPlainRaw

/-- The conversation accumulated by a turn of `envAllBad`: the initial
two messages plus five rounds of bad reply and retry prompt. -/
def badMsgs : List Message :=
  wMsgs ++ (List.replicate 5 [(⟨"assistant", "no"⟩ : Message), ⟨"user", RETRY_PROMPT⟩]).flatten

/-- A text holding two discriminator-bearing objects and one without. -/
def multiObjText : String :=
  "x \x7b\"action\":\"one\"\x7d y \x7b\"b\":2\x7d z \x7b\"action\":\"two\"\x7d"

/-- A bare decision-object text for the fence-invariance witness. -/
def bareDecisionText : String := "\x7b\"action\":\"done\",\"summary\":\"ok\"\x7d"

/-! ## Theorems about the claims -/

/-- Auxiliary: the final element survives as a suffix of a joined line list. -/
theorem joinLines_append_suffix (ls : List String) (y : String) :
    y.data <:+ (joinLines (ls ++ [y])).data := by
  induction ls with
  | nil => simp [joinLines]
  | cons x ls ih =>
      cases ls with
      | nil =>
          show y.data <:+ (joinLines [x, y]).data
          show y.data <:+ (x ++ "\n" ++ y).data
          rw [String.data_append]
          exact List.suffix_append _ _
      | cons z ls' =>
          show y.data <:+ (x ++ "\n" ++ joinLines ((z :: ls') ++ [y])).data
          rw [String.data_append]
          exact ih.trans (List.suffix_append _ _)

/-- Claim C4: for every behaviour of the subordinate process the Command
Executor returns a `CommandResult` (the Lean embedding of `run_cmd` is a
total function, mirroring the `try`/`except` wrapper that prevents any
exception from escaping); a timeout yields the timeout exit marker (the
Python `None` return code) with the explanatory `"Timed out."` note
appended to stderr, and a failed spawn yields the spawn-error marker
(return code `-1`) with the underlying error text as the whole stderr. -/
theorem runCmd_always_returns_marked_result
    (outLines errLines : List String) (e : String) (code : Int) :
    ((runCmd (SpawnOutcome.timedOut outLines errLines)).returncode = none
      ∧ (runCmd (SpawnOutcome.timedOut outLines errLines)).stderr
          = joinLines (errLines ++ ["Timed out."])
      ∧ "Timed out.".data <:+ ((runCmd (SpawnOutcome.timedOut outLines errLines)).stderr).data
      ∧ ∀ n : Int, (runCmd (SpawnOutcome.timedOut outLines errLines)).returncode ≠ some n)
  ∧ ((runCmd (SpawnOutcome.spawnError e)).returncode = some (-1)
      ∧ (runCmd (SpawnOutcome.spawnError e)).stderr = e)
  ∧ (runCmd (SpawnOutcome.completed outLines errLines code)).returncode = some code := by
  refine ⟨⟨rfl, rfl, joinLines_append_suffix errLines "Timed out.", ?_⟩, ⟨rfl, rfl⟩, rfl⟩
  intro n h
  cases h

/-- Claim C5: the view of the Context Manager for the next call keeps the
system message first and at most the last `MAX_HISTORY_MSGS` of the
remaining messages, in their original relative order (the kept tail is a
suffix of the original tail), so the view never exceeds
`1 + MAX_HISTORY_MSGS` messages. -/
theorem trim_messages_window (sys : Message) (rest : List Message) :
    ∃ tail, trim_messages (sys :: rest) = sys :: tail
      ∧ tail.length ≤ MAX_HISTORY_MSGS
      ∧ tail <:+ rest
      ∧ (trim_messages (sys :: rest)).length ≤ 1 + MAX_HISTORY_MSGS := by
  by_cases h : (sys :: rest).length ≤ MAX_HISTORY_MSGS + 1
  · have hr : rest.length ≤ MAX_HISTORY_MSGS := by
      simp only [List.length_cons] at h; omega
    refine ⟨rest, ?_, hr, List.suffix_refl rest, ?_⟩
    · unfold trim_messages; rw [if_pos h]
    · unfold trim_messages; rw [if_pos h]
      simp only [List.length_cons]; omega
  · have hlong : MAX_HISTORY_MSGS ≤ rest.length := by
      simp only [List.length_cons] at h; omega
    have hidx : (sys :: rest).length - MAX_HISTORY_MSGS
        = (rest.length - MAX_HISTORY_MSGS) + 1 := by
      simp only [List.length_cons]; omega
    have heq : trim_messages (sys :: rest)
        = sys :: rest.drop (rest.length - MAX_HISTORY_MSGS) := by
      unfold trim_messages; rw [if_neg h, hidx, List.drop_succ_cons]
      rfl
    refine ⟨rest.drop (rest.length - MAX_HISTORY_MSGS), heq, ?_, List.drop_suffix _ _, ?_⟩
    · rw [List.length_drop]; omega
    · rw [heq]; simp only [List.length_cons, List.length_drop]; omega

/-- Claim C10: an input whose whole trimmed text is valid JSON but not an
object (here a bare number) is returned by the Parser as that non-object
value rather than "none", and the subsequent `.get` field lookup of the loop
on it raises (`AttributeError`), escaping the loop uncaught. -/
theorem parse_json_nonobject_reaches_get :
    parse_json "42" = some (JValue.num "42")
  ∧ turn "t" wState envNum = TurnResult.raised "AttributeError" ⟨1, 0, wMsgs⟩ :=
  ⟨rfl, rfl⟩

/-- Counterexample to claim C1: the object `{"foo": 1}` carries no
`action` discriminator, yet the Parser returns it (the direct whole-text
parse skips the discriminator check), the loop treats it as a valid
decision (the failure counter is reset, not incremented) and it reaches
the Action Dispatcher, whose default `run` branch answers with the
empty-command feedback. -/
theorem parse_json_accepts_missing_action :
    parse_json "\x7b\"foo\": 1\x7d" = some (JValue.obj [("foo", JValue.num "1")])
  ∧ hasKey [("foo", JValue.num "1")] "action" = false
  ∧ turn "t" wState envNoAction
      = TurnResult.next ⟨1, 0, wMsgs ++ [⟨"assistant", "\x7b\"foo\": 1\x7d"⟩,
          ⟨"user", emptyCommandFeedback⟩]⟩ :=
  ⟨rfl, rfl, rfl⟩

/-- Auxiliary: a candidate recovered by the brace scan is always an
object carrying the `"action"` discriminator. -/
theorem candidateAt_obj_action (t : List Char) (s : Nat) (v : JValue)
    (h : candidateAt t s = some v) :
    ∃ fields, v = JValue.obj fields ∧ hasKey fields "action" = true := by
  unfold candidateAt at h
  split at h
  · split at h
    · split at h
      · split at h
        · exact ⟨_, (Option.some_injective _ h).symm, by assumption⟩
        · cases h
      · cases h
    · cases h
  · cases h

/-- Auxiliary: the overwriting accumulation of the fallback scan only
ever holds `none` or a scanned candidate. -/
theorem foldl_overwrite_invariant (t : List Char) (l : List Nat)
    (init : Option JValue)
    (hinit : ∀ v, init = some v → ∃ fields, v = JValue.obj fields ∧ hasKey fields "action" = true) :
    ∀ v, l.foldl (fun best s =>
        match candidateAt t s with
        | some v => some v
        | none => best) init = some v →
      ∃ fields, v = JValue.obj fields ∧ hasKey fields "action" = true := by
  induction l generalizing init with
  | nil => exact hinit
  | cons a l ih =>
      intro v hv
      refine ih _ ?_ v hv
      intro w hw
      dsimp only at hw
      cases hc : candidateAt t a with
      | none => rw [hc] at hw; exact hinit w hw
      | some u =>
          rw [hc] at hw
          cases hw
          exact candidateAt_obj_action t a w hc

/-- Claim C1 (amended): a decision recovered by the brace-scan fallback —
that is, whenever the whole trimmed text does not itself load as JSON —
is always an object carrying the `action` discriminator field.  (The
counterexample `parse_json_accepts_missing_action` shows the claim fails
for the direct whole-text parse, which skips the discriminator check and
lets a tag-less decision reach the dispatcher.) -/
theorem parse_json_fallback_carries_action (text : String) (v : JValue)
    (hdirect : jsonLoads (stripFences text.data) = none)
    (hres : parse_json text = some v) :
    ∃ fields, v = JValue.obj fields ∧ hasKey fields "action" = true := by
  unfold parse_json parseAfterStrip at hres
  rw [hdirect] at hres
  exact foldl_overwrite_invariant _ _ none (fun w hw => by cases hw) v hres

/-- Witness for `parse_json_fallback_carries_action` at a concrete text
whose trimmed whole does not load as JSON. -/
theorem parse_json_fallback_carries_action_witness :
    jsonLoads (stripFences multiObjText.data) = none
    ∧ parse_json multiObjText = some (JValue.obj [("action", JValue.str "two")])
    ∧ ∃ fields, JValue.obj [("action", JValue.str "two")] = JValue.obj fields
        ∧ hasKey fields "action" = true :=
  ⟨rfl, rfl, parse_json_fallback_carries_action multiObjText _ rfl rfl⟩

/-- Auxiliary: an overwriting left fold computes the last element of the
filtered candidate list (or keeps its initial value when there is none). -/
theorem foldl_overwrite_getLast (f : Nat → Option JValue) (l : List Nat)
    (init : Option JValue) :
    l.foldl (fun best s =>
        match f s with
        | some v => some v
        | none => best) init
      = match (l.filterMap f).getLast? with
        | some v => some v
        | none => init := by
  induction l generalizing init with
  | nil => simp
  | cons a l ih =>
      rw [List.foldl_cons, List.filterMap_cons]
      cases hc : f a with
      | none => rw [ih]
      | some v =>
          rw [ih]
          cases hl : l.filterMap f with
          | nil => simp
          | cons b m => rw [List.getLast?_cons_cons]; simp [List.getLast?_eq_getLast]

/-- Claim C6: whenever the whole trimmed text does not itself load as
JSON, the Parser returns exactly the last (rightmost-starting) qualifying
candidate of the left-to-right brace scan — the spec-side description
`List.getLast?` of `specQualifying`. -/
theorem parse_json_returns_last_qualifying (text : String)
    (hdirect : jsonLoads (stripFences text.data) = none) :
    parse_json text = (specQualifying (stripFences text.data)).getLast? := by
  unfold parse_json parseAfterStrip specQualifying
  rw [hdirect, foldl_overwrite_getLast]
  cases ((List.range (stripFences text.data).length).filterMap
      (candidateAt (stripFences text.data))).getLast? <;> rfl

/-- Witness for `parse_json_returns_last_qualifying` on a text holding an
earlier qualifying object, a non-qualifying one, and a later qualifying
one: the Parser returns the later qualifying object. -/
theorem parse_json_returns_last_qualifying_witness :
    jsonLoads (stripFences multiObjText.data) = none
    ∧ parse_json multiObjText = (specQualifying (stripFences multiObjText.data)).getLast?
    ∧ parse_json multiObjText = some (JValue.obj [("action", JValue.str "two")]) :=
  ⟨rfl, parse_json_returns_last_qualifying multiObjText rfl, rfl⟩

/-- Auxiliary: every way the Action Dispatcher can end a turn — it only
appends to the conversation (never truncates it), always carries the
reset failure counter, and never produces a ceiling outcome. -/
theorem dispatchAction_shape (step : Nat) (msgs : List Message) (raw : String)
    (v : JValue) (env : TurnEnv) :
    (∃ extra, dispatchAction step msgs raw v env = TurnResult.next ⟨step, 0, msgs ++ extra⟩)
    ∨ dispatchAction step msgs raw v env = TurnResult.done ⟨step, 0, msgs⟩
    ∨ dispatchAction step msgs raw v env = TurnResult.raised "AttributeError" ⟨step, 0, msgs⟩ := by
  unfold dispatchAction
  dsimp only
  repeat' split
  all_goals
    first
      | exact Or.inl ⟨_, rfl⟩
      | exact Or.inr (Or.inl rfl)
      | exact Or.inr (Or.inr rfl)

/-- Claim C2: under the loop invariant `consecutive_fails < 3`, a turn
that yields a valid decision continues (or ends) with the counter reset
to 0; a turn that does not (a caught inference error, or parse failure
after the retries) continues with the counter incremented and still
below the ceiling; and a turn produces a failure-ceiling termination
exactly when the counter was 2 (so it reaches 3) on a turn that neither
yields a decision nor escapes through an uncaught retry-loop exception. -/
theorem consecutive_failures_policy (task : String) (st : AgentState)
    (env : TurnEnv) (h3 : st.fails < 3) :
    (∀ s', turn task st env = TurnResult.next s' →
        (TurnYields env.calls st.messages → s'.fails = 0)
        ∧ (¬ TurnYields env.calls st.messages → s'.fails = st.fails + 1)
        ∧ s'.fails < 3)
    ∧ (∀ s', turn task st env = TurnResult.done s' → s'.fails = 0)
    ∧ ((∃ s', turn task st env = TurnResult.apiCeiling s'
          ∨ turn task st env = TurnResult.parseCeiling s')
        ↔ st.fails = 2 ∧ ¬ TurnYields env.calls st.messages
            ∧ ¬ TurnCrashes env.calls st.messages) := by
  unfold turn
  cases hdp : decisionPhase env.calls st.messages with
  | crashed e =>
      have hc : TurnCrashes env.calls st.messages := ⟨e, hdp⟩
      dsimp only
      refine ⟨?_, ?_, ?_⟩
      · intro s' h; cases h
      · intro s' h; cases h
      · constructor
        · rintro ⟨s', h | h⟩ <;> cases h
        · rintro ⟨-, -, hnc⟩; exact absurd hc hnc
  | apiError e =>
      have hny : ¬ TurnYields env.calls st.messages := by
        rintro ⟨m, r, v, hg⟩; rw [hdp] at hg; cases hg
      have hnc : ¬ TurnCrashes env.calls st.messages := by
        rintro ⟨e', hg⟩; rw [hdp] at hg; cases hg
      dsimp only
      by_cases hf : 3 ≤ st.fails + 1
      · rw [if_pos hf]
        refine ⟨?_, ?_, ?_⟩
        · intro s' h; cases h
        · intro s' h; cases h
        · constructor
          · rintro -; exact ⟨by omega, hny, hnc⟩
          · rintro -; exact ⟨_, Or.inl rfl⟩
      · rw [if_neg hf]
        refine ⟨?_, ?_, ?_⟩
        · rintro s' h
          cases h
          exact ⟨fun hy => absurd hy hny, fun _ => rfl, by dsimp only; omega⟩
        · intro s' h; cases h
        · constructor
          · rintro ⟨s', h | h⟩ <;> cases h
          · rintro ⟨h2, -, -⟩; omega
  | noDecision m =>
      have hny : ¬ TurnYields env.calls st.messages := by
        rintro ⟨m', r, v, hg⟩; rw [hdp] at hg; cases hg
      have hnc : ¬ TurnCrashes env.calls st.messages := by
        rintro ⟨e', hg⟩; rw [hdp] at hg; cases hg
      dsimp only
      by_cases hf : 3 ≤ st.fails + 1
      · rw [if_pos hf]
        refine ⟨?_, ?_, ?_⟩
        · intro s' h; cases h
        · intro s' h; cases h
        · constructor
          · rintro -; exact ⟨by omega, hny, hnc⟩
          · rintro -; exact ⟨_, Or.inr rfl⟩
      · rw [if_neg hf]
        cases m with
        | nil =>
            refine ⟨?_, ?_, ?_⟩
            · intro s' h; cases h
            · intro s' h; cases h
            · constructor
              · rintro ⟨s', h | h⟩ <;> cases h
              · rintro ⟨h2, -, -⟩; omega
        | cons m0 mrest =>
            refine ⟨?_, ?_, ?_⟩
            · rintro s' h
              cases h
              exact ⟨fun hy => absurd hy hny, fun _ => rfl, by dsimp only; omega⟩
            · intro s' h; cases h
            · constructor
              · rintro ⟨s', h | h⟩ <;> cases h
              · rintro ⟨h2, -, -⟩; omega
  | got m r v =>
      have hy : TurnYields env.calls st.messages := ⟨m, r, v, hdp⟩
      dsimp only
      rcases dispatchAction_shape (st.step + 1) m r v env with ⟨extra, hsh⟩ | hsh | hsh <;>
        rw [hsh] <;> refine ⟨?_, ?_, ?_⟩
      · rintro s' h; cases h
        exact ⟨fun _ => rfl, fun hny => absurd hy hny, by dsimp only; omega⟩
      · intro s' h; cases h
      · constructor
        · rintro ⟨s', h | h⟩ <;> cases h
        · rintro ⟨-, hny, -⟩; exact absurd hy hny
      · intro s' h; cases h
      · rintro s' h; cases h; rfl
      · constructor
        · rintro ⟨s', h | h⟩ <;> cases h
        · rintro ⟨-, hny, -⟩; exact absurd hy hny
      · intro s' h; cases h
      · intro s' h; cases h
      · constructor
        · rintro ⟨s', h | h⟩ <;> cases h
        · rintro ⟨-, hny, -⟩; exact absurd hy hny

/-- Witness for `consecutive_failures_policy`: a fresh state, an
environment that answers with a valid `done` decision, and the reset
conclusion applied to the resulting terminal state. -/
theorem consecutive_failures_policy_witness :
    wState.fails < 3
    ∧ (turn "t" wState envDone = TurnResult.done ⟨1, 0, wMsgs⟩)
    ∧ (∀ s', turn "t" wState envDone = TurnResult.done s' → s'.fails = 0) :=
  ⟨by decide, rfl,
    (consecutive_failures_policy "t" wState envDone (by decide)).2.1⟩

/-- Counterexample to claim C3: when the first call returns unparsable
text and the generator call made inside the per-turn JSON retry loop
raises an inference error, the error is not caught anywhere — the turn
ends in the uncaught-exception result (the Python process would die with
a traceback), not in a counted, retried failure or any loop outcome. -/
theorem retry_loop_error_uncaught :
    turn "t" wState envRetryCrash
      = TurnResult.raised "connection refused" ⟨1, 0, wMsgs⟩ := rfl

/-- Claim C3 (amended): an inference-call error raised by the *initial*
per-turn call is caught; it either increments the failure counter and
continues with a corrective hint, or — when the counter reaches the
ceiling — terminates the loop with the distinguishable API-failure
outcome.  (The counterexample `retry_loop_error_uncaught` shows that an
error raised during the JSON retry loop instead escapes uncaught.) -/
theorem initial_call_error_caught (task : String) (st : AgentState)
    (env : TurnEnv) (e : String) (h : env.calls 0 = Except.error e) :
    (st.fails + 1 < 3 → turn task st env
        = TurnResult.next ⟨st.step + 1, st.fails + 1, st.messages ++ apiErrorMessages e⟩)
    ∧ (3 ≤ st.fails + 1 → turn task st env
        = TurnResult.apiCeiling ⟨st.step + 1, st.fails + 1, st.messages⟩) := by
  have hdp : decisionPhase env.calls st.messages = DPhase.apiError e := by
    unfold decisionPhase; rw [h]
  unfold turn
  rw [hdp]
  dsimp only
  constructor
  · intro hlt; rw [if_neg (by omega)]
  · intro hge; rw [if_pos hge]

/-- Witness for `initial_call_error_caught`: a network failure on a fresh
state continues the loop with the hint messages appended. -/
theorem initial_call_error_caught_witness :
    envApiDown.calls 0 = Except.error "down"
    ∧ wState.fails + 1 < 3
    ∧ turn "t" wState envApiDown
        = TurnResult.next ⟨1, 1, wMsgs ++ apiErrorMessages "down"⟩ :=
  ⟨rfl, by decide,
    (initial_call_error_caught "t" wState envApiDown "down" rfl).1 (by decide)⟩

/-- Auxiliary: the JSON retry loop only appends to the conversation. -/
theorem retryLoop_msgs_extend (calls : Nat → Except String String) :
    ∀ (n i : Nat) (msgs : List Message) (raw : String) (p : Option JValue)
      (out : List Message × String × Option JValue),
      retryLoop calls i n msgs raw p = Except.ok out → ∃ extra, out.1 = msgs ++ extra := by
  intro n
  induction n with
  | zero =>
      intro i msgs raw p out h
      unfold retryLoop at h
      cases h
      exact ⟨[], by simp⟩
  | succ n ih =>
      intro i msgs raw p out h
      unfold retryLoop at h
      dsimp only at h
      cases hc : calls i with
      | error e => rw [hc] at h; cases h
      | ok raw2 =>
          rw [hc] at h
          dsimp only at h
          by_cases ht : jTruthy (parse_json raw2) = true
          · rw [if_pos ht] at h
            cases h
            exact ⟨_, rfl⟩
          · rw [if_neg ht] at h
            obtain ⟨extra, hex⟩ := ih (i + 1) _ raw2 (parse_json raw2) out h
            exact ⟨_, by rw [hex, List.append_assoc]⟩

/-- Auxiliary: a `noDecision` outcome of the decision phase only extends
the conversation it was given. -/
theorem decisionPhase_noDecision_extends (calls : Nat → Except String String)
    (msgs : List Message) (m : List Message)
    (h : decisionPhase calls msgs = DPhase.noDecision m) :
    ∃ extra, m = msgs ++ extra := by
  unfold decisionPhase at h
  cases h0 : calls 0 with
  | error e => rw [h0] at h; cases h
  | ok raw0 =>
      rw [h0] at h
      dsimp only at h
      cases hp : parse_json raw0 with
      | some v => rw [hp] at h; cases h
      | none =>
          rw [hp] at h
          dsimp only at h
          cases hr : retryLoop calls 1 MAX_JSON_RETRIES msgs raw0 none with
          | error e => rw [hr] at h; cases h
          | ok out =>
              rw [hr] at h
              obtain ⟨m2, r2, p2⟩ := out
              have hex := retryLoop_msgs_extend calls MAX_JSON_RETRIES 1 msgs raw0 none _ hr
              cases p2 with
              | some v => dsimp only at h; cases h
              | none =>
                  dsimp only at h
                  cases h
                  exact hex

/-- Auxiliary: a `got` outcome of the decision phase only extends the
conversation it was given. -/
theorem decisionPhase_got_extends (calls : Nat → Except String String)
    (msgs : List Message) (m : List Message) (r : String) (v : JValue)
    (h : decisionPhase calls msgs = DPhase.got m r v) :
    ∃ extra, m = msgs ++ extra := by
  unfold decisionPhase at h
  cases h0 : calls 0 with
  | error e => rw [h0] at h; cases h
  | ok raw0 =>
      rw [h0] at h
      dsimp only at h
      cases hp : parse_json raw0 with
      | some v2 =>
          rw [hp] at h
          dsimp only at h
          cases h
          exact ⟨[], by simp⟩
      | none =>
          rw [hp] at h
          dsimp only at h
          cases hr : retryLoop calls 1 MAX_JSON_RETRIES msgs raw0 none with
          | error e => rw [hr] at h; cases h
          | ok out =>
              rw [hr] at h
              obtain ⟨m2, r2, p2⟩ := out
              have hex := retryLoop_msgs_extend calls MAX_JSON_RETRIES 1 msgs raw0 none _ hr
              cases p2 with
              | some v2 =>
                  dsimp only at h
                  cases h
                  exact hex
              | none => dsimp only at h; cases h

/-- Auxiliary: any continuing turn preserves the head of the
conversation — the system message that sits at position 0 at the start
of the run is still at position 0 afterwards. -/
theorem turn_next_head (task : String) (st : AgentState) (env : TurnEnv)
    (m0 : Message) (mrest : List Message) (hm : st.messages = m0 :: mrest) :
    ∀ s', turn task st env = TurnResult.next s' → s'.messages.head? = some m0 := by
  unfold turn
  cases hdp : decisionPhase env.calls st.messages with
  | crashed e => intro s' h; cases h
  | apiError e =>
      dsimp only
      by_cases hf : 3 ≤ st.fails + 1
      · rw [if_pos hf]; intro s' h; cases h
      · rw [if_neg hf]; intro s' h; cases h
        rw [hm]; rfl
  | noDecision m =>
      dsimp only
      obtain ⟨extra, hex⟩ := decisionPhase_noDecision_extends env.calls st.messages m hdp
      by_cases hf : 3 ≤ st.fails + 1
      · rw [if_pos hf]; intro s' h; cases h
      · rw [if_neg hf]
        rw [hm] at hex
        cases hm2 : m with
        | nil => rw [hm2] at hex; cases hex
        | cons mh mtail =>
            rw [hm2] at hex
            intro s' h
            cases h
            have : mh = m0 := by
              have := hex
              rw [List.cons_append] at this
              exact (List.cons.injEq _ _ _ _ ▸ this).1
            rw [this]
            rfl
  | got m r v =>
      dsimp only
      obtain ⟨extra, hex⟩ := decisionPhase_got_extends env.calls st.messages m r v hdp
      rcases dispatchAction_shape (st.step + 1) m r v env with ⟨extra2, hsh⟩ | hsh | hsh <;>
        rw [hsh] <;> intro s' h <;> cases h
      rw [hex, hm]
      rfl

/-- Claim C8: when the retry budget is exhausted without a decision and
the failure ceiling is not reached, the turn replaces the whole
conversation with exactly two messages — the message at position 0 (the
system message, which `turn_next_head`-style preservation keeps there
from the start of the run, as the second conjunct states for every
continuing turn) followed by the fresh re-anchoring user message
restating the task. -/
theorem hard_reset_two_messages (task : String) (st : AgentState) (env : TurnEnv)
    (m : List Message) (m0 : Message) (mrest : List Message)
    (hd : decisionPhase env.calls st.messages = DPhase.noDecision m)
    (hf : st.fails + 1 < 3)
    (hm : st.messages = m0 :: mrest) :
    turn task st env
      = TurnResult.next ⟨st.step + 1, st.fails + 1, [m0, resumeMessage task]⟩
    ∧ (∀ env' s', turn task st env' = TurnResult.next s' →
        s'.messages.head? = some m0) := by
  constructor
  · obtain ⟨extra, hex⟩ := decisionPhase_noDecision_extends env.calls st.messages m hd
    unfold turn
    rw [hd]
    dsimp only
    rw [if_neg (by omega)]
    rw [hm] at hex
    rw [hex]
    rfl
  · intro env' s' h
    exact turn_next_head task st env' m0 mrest hm s' h

/-- Witness for `hard_reset_two_messages`: six unparsable replies on a
fresh state lead to the two-message hard reset. -/
theorem hard_reset_two_messages_witness :
    decisionPhase envAllBad.calls wState.messages = DPhase.noDecision badMsgs
    ∧ wState.fails + 1 < 3
    ∧ turn "t" wState envAllBad
        = TurnResult.next ⟨1, 1, [⟨"system", "S"⟩, resumeMessage "t"]⟩ :=
  ⟨rfl, by decide,
    (hard_reset_two_messages "t" wState envAllBad badMsgs ⟨"system", "S"⟩
      [⟨"user", "Task: demo"⟩] rfl (by decide) rfl).1⟩

/-- Auxiliary: the Python `==` test against a string succeeds only on
that very string value. -/
theorem eqStr_eq {v : JValue} {s : String} (h : JValue.eqStr v s = true) :
    v = JValue.str s := by
  cases v with
  | str t => rw [show t = s from eq_of_beq h]
  | null => exact Bool.noConfusion h
  | bool b => exact Bool.noConfusion h
  | num r => exact Bool.noConfusion h
  | arr l => exact Bool.noConfusion h
  | obj f => exact Bool.noConfusion h

/-- Counterexample to claim C7: a validated `Ask` decision whose question
contains one of the auto-confirm keywords (here "want to"/"remove") never
consults the human — the turn result is the same whatever the human
would have answered, and the appended user message is the fixed automatic
confirmation, not the reply of the human. -/
theorem ask_with_keyword_skips_human :
    turn "t" wState (envAskKw "ANSWER-A") = turn "t" wState (envAskKw "ANSWER-B")
    ∧ turn "t" wState (envAskKw "ANSWER-A")
        = TurnResult.next ⟨1, 0, wMsgs ++ [⟨"assistant", askKwRaw⟩,
            ⟨"user", autoYesFeedback⟩]⟩ :=
  ⟨rfl, rfl⟩

/-- Claim C7 (amended): the `Ask` action is the only dispatcher state
whose outcome depends on the free-text reply of the human, and only for
questions that do not match the auto-confirm keywords: (1) for such an
`Ask` decision the stripped reply is appended as the next user feedback
message with the do-not-ask-again instruction; (2) an `Ask` decision whose
question matches a keyword is answered automatically (the human is not
consulted); (3) a turn whose decision is not an `Ask` produces the same
result whatever the reply of the human would be. -/
theorem ask_branch_human_reply (task : String) (st : AgentState) (env : TurnEnv) :
    (∀ m raw fields q,
        decisionPhase env.calls st.messages = DPhase.got m raw (JValue.obj fields) →
        lookupLastD fields "action" (JValue.str "run") = JValue.str "ask" →
        lookupLastD fields "question" (JValue.str "?") = JValue.str q →
        askKw q = false →
        turn task st env = TurnResult.next ⟨st.step + 1, 0, m ++ [⟨"assistant", raw⟩,
            ⟨"user", askReplyFeedback (strStrip env.userAnswer)⟩]⟩)
    ∧ (∀ m raw fields q,
        decisionPhase env.calls st.messages = DPhase.got m raw (JValue.obj fields) →
        lookupLastD fields "action" (JValue.str "run") = JValue.str "ask" →
        lookupLastD fields "question" (JValue.str "?") = JValue.str q →
        askKw q = true →
        turn task st env = TurnResult.next ⟨st.step + 1, 0, m ++ [⟨"assistant", raw⟩,
            ⟨"user", autoYesFeedback⟩]⟩)
    ∧ (∀ a, (∀ m raw fields,
          decisionPhase env.calls st.messages = DPhase.got m raw (JValue.obj fields) →
          lookupLastD fields "action" (JValue.str "run") ≠ JValue.str "ask") →
        turn task st env = turn task st (setAnswer env a)) := by
  refine ⟨?_, ?_, ?_⟩
  · intro m raw fields q hd hact hq hkw
    unfold turn
    rw [hd]
    dsimp only
    unfold dispatchAction
    dsimp only
    rw [hact]
    rw [if_neg (by decide), if_pos (by decide), hq]
    dsimp only
    rw [if_neg (by rw [hkw]; exact Bool.false_ne_true)]
  · intro m raw fields q hd hact hq hkw
    unfold turn
    rw [hd]
    dsimp only
    unfold dispatchAction
    dsimp only
    rw [hact]
    rw [if_neg (by decide), if_pos (by decide), hq]
    dsimp only
    rw [if_pos hkw]
  · intro a hna
    have hsame : decisionPhase (setAnswer env a).calls st.messages
        = decisionPhase env.calls st.messages := rfl
    unfold turn
    rw [hsame]
    cases hdp : decisionPhase env.calls st.messages with
    | crashed e => rfl
    | apiError e => rfl
    | noDecision m => rfl
    | got m raw v =>
        dsimp only
        cases v with
        | obj fields =>
            have hne := hna m raw fields hdp
            unfold dispatchAction
            dsimp only
            by_cases h1 : (lookupLastD fields "action" (JValue.str "run")).eqStr "done" = true
            · rw [if_pos h1, if_pos h1]
            · rw [if_neg h1, if_neg h1]
              by_cases h2 : (lookupLastD fields "action" (JValue.str "run")).eqStr "ask" = true
              · exact absurd (eqStr_eq h2) hne
              · rw [if_neg h2, if_neg h2]
                by_cases h3 : (lookupLastD fields "action" (JValue.str "run")).eqStr "search" = true
                · rw [if_pos h3, if_pos h3]; rfl
                · rw [if_neg h3, if_neg h3]
                  by_cases h4 : (lookupLastD fields "action" (JValue.str "run")).eqStr "fetch" = true
                  · rw [if_pos h4, if_pos h4]; rfl
                  · rw [if_neg h4, if_neg h4]; rfl
        | null => rfl
        | bool b => rfl
        | num r => rfl
        | str t => rfl
        | arr l => rfl

/-- Witness for `ask_branch_human_reply`: an ordinary question obtains
the reply of the human (here `"  /tmp  "`, stripped to `"/tmp"`) and appends
it with the do-not-ask-again instruction. -/
theorem ask_branch_human_reply_witness :
    decisionPhase envAskPlain.calls wState.messages
        = DPhase.got wMsgs askPlainRaw (JValue.obj
            [("action", JValue.str "ask"), ("question", JValue.str "Which directory?")])
    ∧ askKw "Which directory?" = false
    ∧ turn "t" wState envAskPlain
        = TurnResult.next ⟨1, 0, wMsgs ++ [⟨"assistant", askPlainRaw⟩,
            ⟨"user", askReplyFeedback "/tmp"⟩]⟩ := by
  refine ⟨rfl, rfl, ?_⟩
  have h := (ask_branch_human_reply "t" wState envAskPlain).1 wMsgs askPlainRaw
    [("action", JValue.str "ask"), ("question", JValue.str "Which directory?")]
    "Which directory?" rfl rfl rfl rfl
  rw [h]
  rfl

/-- Auxiliary: `dropWhile` keeps a list whose head is not whitespace. -/
theorem dropWhile_isWs_cons_nws (c : Char) (l : List Char) (h : isWs c = false) :
    List.dropWhile isWs (c :: l) = c :: l := by
  rw [List.dropWhile_cons, h]
  simp

/-- Auxiliary: stripping does nothing to a brace-delimited text. -/
theorem stripChars_brace (mid rmid : List Char)
    (hr : ('{' :: mid : List Char).reverse = '}' :: rmid) :
    stripChars ('{' :: mid) = '{' :: mid := by
  unfold stripChars dropTrailingWs
  rw [dropWhile_isWs_cons_nws '{' mid rfl, hr,
    dropWhile_isWs_cons_nws '}' rmid rfl, ← hr, List.reverse_reverse]

/-- Auxiliary: the trailing-fence removal step of `stripFences`, applied
to a brace-delimited text followed by a newline and a closing fence,
recovers the text. -/
theorem fence_trailing_step (mid rmid : List Char)
    (hr : ('{' :: mid : List Char).reverse = '}' :: rmid) :
    stripChars
      (if (('{' :: mid) ++ ['\n', '`', '`', '`'] : List Char).reverse.take 3 = fenceTicks
        then dropTrailingWs ((('{' :: mid) ++ ['\n', '`', '`', '`']).take
          ((('{' :: mid) ++ ['\n', '`', '`', '`'] : List Char).length - 3))
        else ('{' :: mid) ++ ['\n', '`', '`', '`']) = '{' :: mid := by
  have hrev : (('{' :: mid) ++ ['\n', '`', '`', '`'] : List Char).reverse
      = '`' :: '`' :: '`' :: '\n' :: ('{' :: mid : List Char).reverse := by
    rw [List.reverse_append]
    rfl
  rw [hrev, if_pos (show List.take 3
    ('`' :: '`' :: '`' :: '\n' :: ('{' :: mid : List Char).reverse) = fenceTicks from rfl)]
  have hlen : (('{' :: mid) ++ ['\n', '`', '`', '`'] : List Char).length - 3
      = ('{' :: mid : List Char).length + 1 := by
    simp [List.length_append]
  rw [hlen, List.take_append 1,
    show (['\n', '`', '`', '`'] : List Char).take 1 = ['\n'] from rfl]
  unfold dropTrailingWs
  rw [List.reverse_append,
    show (['\n'] : List Char).reverse = ['\n'] from rfl,
    show ((['\n'] : List Char) ++ ('{' :: mid : List Char).reverse)
      = '\n' :: ('{' :: mid : List Char).reverse from rfl,
    List.dropWhile_cons,
    show isWs '\n' = true from rfl,
    if_pos rfl,
    hr, dropWhile_isWs_cons_nws '}' rmid rfl, ← hr, List.reverse_reverse]
  exact stripChars_brace mid rmid hr

/-- Auxiliary: fence stripping does nothing to a bare brace-delimited text. -/
theorem stripFences_bare (mid rmid : List Char)
    (hr : ('{' :: mid : List Char).reverse = '}' :: rmid) :
    stripFences ('{' :: mid) = '{' :: mid := by
  have hc1 : ¬(('{' :: mid : List Char).take 3 = fenceTicks) := by
    rw [show ('{' :: mid : List Char).take 3 = '{' :: mid.take 2 from rfl]
    simp [fenceTicks]
  have hc2 : ¬(('}' :: rmid : List Char).take 3 = fenceTicks) := by
    rw [show ('}' :: rmid : List Char).take 3 = '}' :: rmid.take 2 from rfl]
    simp [fenceTicks]
  unfold stripFences
  dsimp only
  rw [stripChars_brace mid rmid hr, if_neg hc1, hr, if_neg hc2]
  exact stripChars_brace mid rmid hr

/-- Auxiliary: fence stripping recovers a brace-delimited text from a
```json fence. -/
theorem stripFences_fenced_json (mid rmid : List Char)
    (hr : ('{' :: mid : List Char).reverse = '}' :: rmid) :
    stripFences ('`' :: '`' :: '`' :: 'j' :: 's' :: 'o' :: 'n' :: '\n'
      :: (('{' :: mid) ++ ['\n', '`', '`', '`'])) = '{' :: mid := by
  have hXr : ('`' :: '`' :: '`' :: 'j' :: 's' :: 'o' :: 'n' :: '\n'
      :: (('{' :: mid : List Char) ++ ['\n', '`', '`', '`'])).reverse
      = '`' :: '`' :: '`' :: '\n'
        :: (('{' :: mid : List Char).reverse ++ ['\n', 'n', 'o', 's', 'j', '`', '`', '`']) := by
    rw [show ('`' :: '`' :: '`' :: 'j' :: 's' :: 'o' :: 'n' :: '\n'
        :: (('{' :: mid : List Char) ++ ['\n', '`', '`', '`']))
        = (['`', '`', '`', 'j', 's', 'o', 'n', '\n'] : List Char)
          ++ (('{' :: mid) ++ ['\n', '`', '`', '`']) from rfl,
      List.reverse_append, List.reverse_append, List.append_assoc]
    rfl
  have hstrip : stripChars ('`' :: '`' :: '`' :: 'j' :: 's' :: 'o' :: 'n' :: '\n'
      :: (('{' :: mid : List Char) ++ ['\n', '`', '`', '`']))
      = '`' :: '`' :: '`' :: 'j' :: 's' :: 'o' :: 'n' :: '\n'
        :: (('{' :: mid : List Char) ++ ['\n', '`', '`', '`']) := by
    unfold stripChars dropTrailingWs
    rw [dropWhile_isWs_cons_nws '`' _ rfl, hXr, dropWhile_isWs_cons_nws '`' _ rfl,
      ← hXr, List.reverse_reverse]
  unfold stripFences
  dsimp only
  rw [hstrip,
    if_pos (show ('`' :: '`' :: '`' :: 'j' :: 's' :: 'o' :: 'n' :: '\n'
      :: (('{' :: mid : List Char) ++ ['\n', '`', '`', '`'])).take 3 = fenceTicks from rfl),
    show ('`' :: '`' :: '`' :: 'j' :: 's' :: 'o' :: 'n' :: '\n'
      :: (('{' :: mid : List Char) ++ ['\n', '`', '`', '`'])).drop 3
      = 'j' :: 's' :: 'o' :: 'n' :: '\n' :: (('{' :: mid) ++ ['\n', '`', '`', '`']) from rfl,
    if_pos (show (('j' :: 's' :: 'o' :: 'n' :: '\n'
      :: (('{' :: mid : List Char) ++ ['\n', '`', '`', '`'])).take 4).map Char.toLower
      = ['j', 's', 'o', 'n'] from rfl),
    show ('j' :: 's' :: 'o' :: 'n' :: '\n'
      :: (('{' :: mid : List Char) ++ ['\n', '`', '`', '`'])).drop 4
      = '\n' :: (('{' :: mid) ++ ['\n', '`', '`', '`']) from rfl,
    List.dropWhile_cons, show isWs '\n' = true from rfl, if_pos rfl,
    List.cons_append, dropWhile_isWs_cons_nws '{' _ rfl, ← List.cons_append]
  exact fence_trailing_step mid rmid hr

/-- Auxiliary: fence stripping recovers a brace-delimited text from a
plain ``` fence. -/
theorem stripFences_fenced_plain (mid rmid : List Char)
    (hr : ('{' :: mid : List Char).reverse = '}' :: rmid) :
    stripFences ('`' :: '`' :: '`' :: '\n'
      :: (('{' :: mid) ++ ['\n', '`', '`', '`'])) = '{' :: mid := by
  have hXr : ('`' :: '`' :: '`' :: '\n'
      :: (('{' :: mid : List Char) ++ ['\n', '`', '`', '`'])).reverse
      = '`' :: '`' :: '`' :: '\n'
        :: (('{' :: mid : List Char).reverse ++ ['\n', '`', '`', '`']) := by
    rw [show ('`' :: '`' :: '`' :: '\n'
        :: (('{' :: mid : List Char) ++ ['\n', '`', '`', '`']))
        = (['`', '`', '`', '\n'] : List Char) ++ (('{' :: mid) ++ ['\n', '`', '`', '`']) from rfl,
      List.reverse_append, List.reverse_append, List.append_assoc]
    rfl
  have hstrip : stripChars ('`' :: '`' :: '`' :: '\n'
      :: (('{' :: mid : List Char) ++ ['\n', '`', '`', '`']))
      = '`' :: '`' :: '`' :: '\n'
        :: (('{' :: mid : List Char) ++ ['\n', '`', '`', '`']) := by
    unfold stripChars dropTrailingWs
    rw [dropWhile_isWs_cons_nws '`' _ rfl, hXr, dropWhile_isWs_cons_nws '`' _ rfl,
      ← hXr, List.reverse_reverse]
  have hnj : ¬((('\n' :: (('{' :: mid : List Char) ++ ['\n', '`', '`', '`'])).take 4).map Char.toLower
      = ['j', 's', 'o', 'n']) := by
    rw [show ('\n' :: (('{' :: mid : List Char) ++ ['\n', '`', '`', '`'])).take 4
      = '\n' :: (('{' :: mid : List Char) ++ ['\n', '`', '`', '`']).take 3 from rfl,
      List.map_cons, show Char.toLower '\n' = '\n' from rfl]
    simp
  unfold stripFences
  dsimp only
  rw [hstrip,
    if_pos (show ('`' :: '`' :: '`' :: '\n'
      :: (('{' :: mid : List Char) ++ ['\n', '`', '`', '`'])).take 3 = fenceTicks from rfl),
    show ('`' :: '`' :: '`' :: '\n'
      :: (('{' :: mid : List Char) ++ ['\n', '`', '`', '`'])).drop 3
      = '\n' :: (('{' :: mid) ++ ['\n', '`', '`', '`']) from rfl,
    if_neg hnj,
    List.dropWhile_cons, show isWs '\n' = true from rfl, if_pos rfl,
    List.cons_append, dropWhile_isWs_cons_nws '{' _ rfl, ← List.cons_append]
  exact fence_trailing_step mid rmid hr

/-- Claim C9: wrapping a decision-object text (anything starting with `{`
and ending with `}`) in a leading/trailing fenced-code marker — ```` ```json ````
or plain ```` ``` ```` with surrounding newline whitespace — does not change
what the Parser returns. -/
theorem parse_json_fence_invariant (s : String)
    (h1 : s.data.head? = some '{')
    (h2 : s.data.getLast? = some '}') :
    parse_json ("```json\n" ++ s ++ "\n```") = parse_json s
    ∧ parse_json ("```\n" ++ s ++ "\n```") = parse_json s := by
  obtain ⟨mid, hmid⟩ : ∃ mid, s.data = '{' :: mid := by
    cases hsd : s.data with
    | nil => rw [hsd] at h1; cases h1
    | cons a l =>
        rw [hsd] at h1
        rw [show (a :: l).head? = some a from rfl] at h1
        injection h1 with h1'
        exact ⟨l, by rw [h1']⟩
  obtain ⟨rmid, hrmid⟩ : ∃ rmid, ('{' :: mid : List Char).reverse = '}' :: rmid := by
    have hh : s.data.reverse.head? = some '}' := by rw [List.head?_reverse]; exact h2
    rw [hmid] at hh
    cases hrv : ('{' :: mid : List Char).reverse with
    | nil => rw [hrv] at hh; cases hh
    | cons a l =>
        rw [hrv] at hh
        rw [show (a :: l).head? = some a from rfl] at hh
        injection hh with hh'
        exact ⟨l, by rw [hh']⟩
  have hB : stripFences s.data = s.data := by
    rw [hmid]
    exact stripFences_bare mid rmid hrmid
  constructor
  · unfold parse_json
    have hA : stripFences ("```json\n" ++ s ++ "\n```").data = s.data := by
      rw [show ("```json\n" ++ s ++ "\n```").data
          = "```json\n".data ++ s.data ++ "\n```".data
          by rw [String.data_append, String.data_append],
        hmid, List.append_assoc,
        show ("```json\n".data ++ (('{' :: mid) ++ "\n```".data) : List Char)
          = '`' :: '`' :: '`' :: 'j' :: 's' :: 'o' :: 'n' :: '\n'
            :: (('{' :: mid) ++ ['\n', '`', '`', '`']) from rfl,
        stripFences_fenced_json mid rmid hrmid]
    rw [hA, hB]
  · unfold parse_json
    have hA : stripFences ("```\n" ++ s ++ "\n```").data = s.data := by
      rw [show ("```\n" ++ s ++ "\n```").data
          = "```\n".data ++ s.data ++ "\n```".data
          by rw [String.data_append, String.data_append],
        hmid, List.append_assoc,
        show ("```\n".data ++ (('{' :: mid) ++ "\n```".data) : List Char)
          = '`' :: '`' :: '`' :: '\n' :: (('{' :: mid) ++ ['\n', '`', '`', '`']) from rfl,
        stripFences_fenced_plain mid rmid hrmid]
    rw [hA, hB]

/-- Witness for `parse_json_fence_invariant` on a concrete valid decision
object, also evaluating both sides. -/
theorem parse_json_fence_invariant_witness :
    bareDecisionText.data.head? = some '{'
    ∧ bareDecisionText.data.getLast? = some '}'
    ∧ parse_json ("```json\n" ++ bareDecisionText ++ "\n```") = parse_json bareDecisionText
    ∧ parse_json bareDecisionText
        = some (JValue.obj [("action", JValue.str "done"), ("summary", JValue.str "ok")]) :=
  ⟨rfl, rfl, (parse_json_fence_invariant bareDecisionText rfl rfl).1, rfl⟩
